import Mathlib

/-!
Shallow embedding of the arbitrage-cleaning core in `src/OptionsArbitrage.py`.

A pandas DataFrame with columns strike/bid/ask is modelled as a `List Row`,
where `Row.label` is the row's pandas index label.  Prices and strikes are
modelled as exact rationals; the float tolerances 1e-10 and 0.01 of the
source are the corresponding rationals.  `sort_values('strike')` is modelled
as a stable sort (the source leaves the order of equal strikes unspecified),
`reset_index(drop=True)` relabels rows positionally, and `drop(index=...)`
raises KeyError when a label is absent, modelled by returning `none`.
Rational division is total with `x / 0 = 0`, whereas numpy float division by
zero yields inf/nan; no statement below depends on a zero denominator.
The discount factors `df_r = exp(-r*T)` and `df_q = exp(-q*T)` enter the
computation only through their values, so the cleaner structure stores the
two factors directly (with `q = 0` the source gives `df_q = exp 0 = 1`
exactly).
-/

/-- One quote row of a DataFrame: pandas index label plus the
strike/bid/ask columns. -/
structure Row where
  label : ℕ
  strike : ℚ
  bid : ℚ
  ask : ℚ
deriving DecidableEq

/-- Default row used for out-of-range list reads; never reached for the
in-range indices used below. -/
def row0 : Row := ⟨0, 0, 0, 0⟩

/-- Pricing context built by `OptionsArbitrageCleaner.__init__`: spot bid/ask
and the derived discount factors `df_r = exp(-r*T)`, `df_q = exp(-q*T)`. -/
structure OptionsArbitrageCleaner where
  Sb : ℚ
  Sa : ℚ
  df_r : ℚ
  df_q : ℚ
deriving DecidableEq

/-- The tolerance `1e-10` appearing in the checkers. -/
def eps : ℚ := 1 / 10 ^ 10

/-- Python's built-in `max` on two numbers (returns the first argument on
ties, which is indistinguishable on values). -/
def pymax (a b : ℚ) : ℚ := if a < b then b else a

/-- Comparison used by `df.sort_values('strike')`. -/
def rowLE (a b : Row) : Prop := a.strike ≤ b.strike

instance : DecidableRel rowLE := fun a b => inferInstanceAs (Decidable (a.strike ≤ b.strike))

/-- Model of `df.sort_values('strike')` (stable sort by the strike column). -/
def sort_values_strike (df : List Row) : List Row := List.insertionSort rowLE df

/-- Helper for `reset_index(drop=True)`: relabel rows positionally starting
at `i`. -/
def reset_index_from : ℕ → List Row → List Row
  | _, [] => []
  | i, r :: rs => ⟨i, r.strike, r.bid, r.ask⟩ :: reset_index_from (i + 1) rs

/-- Model of `df.reset_index(drop=True)`. -/
def reset_index (df : List Row) : List Row := reset_index_from 0 df

/-- Model of `df.sort_values('strike').reset_index(drop=True)`, the view the
vertical and butterfly checkers work on. -/
def sortedView (df : List Row) : List Row := reset_index (sort_values_strike df)

/-- Monotonicity sub-check of `_check_vertical_no_arb` (source lines 26-34) at
one adjacent pair `(i, i+1)` of the sorted view `s`: calls require
`ask(K_i) >= bid(K_{i+1})`, puts require `bid(K_i) <= ask(K_{i+1})`; a
violation flags the higher-strike position `df_sorted.index[i+1] = i+1`. -/
def monoFlag (s : List Row) (price_type : String) (i : ℕ) : Option ℕ :=
  if price_type = "call" then
    if (s.getD i row0).ask < (s.getD (i + 1) row0).bid then
      some (s.getD (i + 1) row0).label
    else none
  else
    if (s.getD i row0).bid > (s.getD (i + 1) row0).ask then
      some (s.getD (i + 1) row0).label
    else none

/-- Convexity sub-check of `_check_vertical_no_arb` (source lines 37-50) at one
interior triplet centred at `i` of the sorted view `s`: with the conservative
prices (calls `(ask, bid, ask)`, puts `(bid, ask, bid)`), flag the middle
position when `slope1 > slope2 + 1e-10`. -/
def convexFlag (s : List Row) (price_type : String) (i : ℕ) : Option ℕ :=
  if price_type = "call" then
    if ((s.getD i row0).bid - (s.getD (i - 1) row0).ask)
          / ((s.getD i row0).strike - (s.getD (i - 1) row0).strike) >
        ((s.getD (i + 1) row0).ask - (s.getD i row0).bid)
          / ((s.getD (i + 1) row0).strike - (s.getD i row0).strike) + eps then
      some (s.getD i row0).label
    else none
  else
    if ((s.getD i row0).ask - (s.getD (i - 1) row0).bid)
          / ((s.getD i row0).strike - (s.getD (i - 1) row0).strike) >
        ((s.getD (i + 1) row0).bid - (s.getD i row0).ask)
          / ((s.getD (i + 1) row0).strike - (s.getD i row0).strike) + eps then
      some (s.getD i row0).label
    else none

/-- Model of `_check_vertical_no_arb` (source lines 19-51): the monotonicity
loop over `range(n-1)` followed by the convexity loop over `range(1, n-1)`,
both on the re-sorted re-indexed view; after `reset_index(drop=True)` the
value `df_sorted.index[j]` is the position `j`, so the returned entries are
positions in that view; `list(set(violations))` is modelled by `dedup`. -/
def check_vertical_no_arb (df : List Row) (price_type : String) : List ℕ :=
  ((List.range ((sortedView df).length - 1)).filterMap (monoFlag (sortedView df) price_type)
    ++ (List.range' 1 ((sortedView df).length - 2)).filterMap
      (convexFlag (sortedView df) price_type)).dedup

/-- Butterfly check of `_check_butterfly_no_arb` at one interior triplet
centred at `i` of the sorted view `s`: skip unless the spacing asymmetry
ratio is at most `0.01`, then flag the middle position when the
long-butterfly cost `bid_prev - 2*ask_mid + bid_next` exceeds `1e-10`; the
call and put branches of the source compute the identical expression. -/
def butterflyFlag (s : List Row) (price_type : String) (i : ℕ) : Option ℕ :=
  if abs (((s.getD i row0).strike - (s.getD (i - 1) row0).strike)
        - ((s.getD (i + 1) row0).strike - (s.getD i row0).strike))
      / (s.getD i row0).strike > 1 / 100 then none
  else if price_type = "call" then
    if (s.getD (i - 1) row0).bid - 2 * (s.getD i row0).ask
        + (s.getD (i + 1) row0).bid > eps then
      some (s.getD i row0).label
    else none
  else
    if (s.getD (i - 1) row0).bid - 2 * (s.getD i row0).ask
        + (s.getD (i + 1) row0).bid > eps then
      some (s.getD i row0).label
    else none

/-- Model of `_check_butterfly_no_arb` (source lines 53-75): the loop over
`range(1, n-1)` on the re-sorted re-indexed view. -/
def check_butterfly_no_arb (df : List Row) (price_type : String) : List ℕ :=
  (List.range' 1 ((sortedView df).length - 2)).filterMap
    (butterflyFlag (sortedView df) price_type)

/-- Bounds check of `_check_bounds` at one row: model-free lower/upper price
bounds from spot, strike and the discount factors. -/
def boundsFlag (c : OptionsArbitrageCleaner) (price_type : String) (row : Row) :
    Option ℕ :=
  if price_type = "call" then
    if row.bid < pymax (c.Sb * c.df_q - row.strike * c.df_r) 0 - eps
        ∨ row.ask > c.Sa + eps then
      some row.label
    else none
  else
    if row.bid < pymax (row.strike * c.df_r - c.Sa * c.df_q) 0 - eps
        ∨ row.ask > row.strike * c.df_r + eps then
      some row.label
    else none

/-- Model of `_check_bounds` (source lines 77-92): per-row bounds check;
`df.iterrows()` yields the actual index labels of the current table, so the
returned entries are labels, not positions. -/
def check_bounds (c : OptionsArbitrageCleaner) (df : List Row) (price_type : String) :
    List ℕ :=
  df.filterMap (boundsFlag c price_type)

/-- First row of the table whose strike equals `k`, as in
`df.index[df['strike'] == atm_strike].tolist()[0]`. -/
def firstRowWithStrike (df : List Row) (k : ℚ) : Option Row :=
  df.find? (fun r => decide (r.strike = k))

/-- Label of the first row whose strike equals `k`; `none` models the
IndexError/absence case. -/
def firstLabelWithStrike (df : List Row) (k : ℚ) : Option ℕ :=
  (firstRowWithStrike df k).map Row.label

/-- Model of `identify_atm_strike` (source lines 12-17): `np.argmin` returns
the first position minimizing the distance to the spot midpoint and raises on
an empty input, modelled by the first-minimizer scan `bestRow` below. -/
def bestRow (mid : ℚ) : List Row → Option Row
  | [] => none
  | r :: rs =>
    match bestRow mid rs with
    | none => some r
    | some b => if abs (b.strike - mid) < abs (r.strike - mid) then some b else some r

/-- Model of `identify_atm_strike`: strike closest to `(Sb + Sa) / 2`,
first occurrence in row order on ties, `none` on an empty table. -/
def identify_atm_strike (c : OptionsArbitrageCleaner) (df : List Row) : Option ℚ :=
  (bestRow ((c.Sb + c.Sa) / 2) df).map Row.strike

/-- Union of the three checkers as a set of index values, as in
`set(v_vertical + v_butterfly + v_bounds)` (source line 105); the Python set
is used only through membership, emptiness and iteration, so it is modelled
as a duplicate-free list. -/
def allViolations (c : OptionsArbitrageCleaner) (df : List Row) (option_type : String) :
    List ℕ :=
  (check_vertical_no_arb df option_type ++ check_butterfly_no_arb df option_type
    ++ check_bounds c df option_type).dedup

/-- Model of `set.discard(x)`: remove the value from the set. -/
def discardIdx (s : List ℕ) (x : ℕ) : List ℕ :=
  s.filter (fun l => decide (l ≠ x))

/-- Model of `df.drop(index=list(labels))`: removes every row whose label is
in `labels`; pandas raises KeyError when some label is absent, modelled by
`none`. -/
def dropIndexLabels (df : List Row) (labels : List ℕ) : Option (List Row) :=
  if ∀ l ∈ labels, ∃ r ∈ df, r.label = l then
    some (df.filter (fun r => decide (r.label ∉ labels)))
  else none

/-- Terminal state of one cleaning run, following the spec's state machine:
convergence, iteration-cap exhaustion, or loss of the anchor strike. -/
inductive TermState
  | CLEAN
  | ITER_EXHAUSTED
  | ANCHOR_LOST
deriving DecidableEq

/-- The `for iteration in range(max_iter)` loop of `clean_single_dataframe`
(source lines 99-120), instrumented with the terminal state.  Each pass:
union the checker outputs, `discard` the anchor index, stop clean if empty,
otherwise drop the flagged labels, `reset_index(drop=True)`, and re-resolve
the anchor index by strike value, stopping if the anchor strike is gone. -/
def cleanLoop (c : OptionsArbitrageCleaner) (option_type : String) (atm_strike : ℚ) :
    ℕ → List Row → ℕ → Option (List Row × TermState)
  | 0, df_clean, _ => some (df_clean, TermState.ITER_EXHAUSTED)
  | (fuel + 1), df_clean, atm_index =>
    if discardIdx (allViolations c df_clean option_type) atm_index = [] then
      some (df_clean, TermState.CLEAN)
    else
      match dropIndexLabels df_clean
          (discardIdx (allViolations c df_clean option_type) atm_index) with
      | none => none
      | some dropped =>
        match firstLabelWithStrike (reset_index dropped) atm_strike with
        | some idx2 => cleanLoop c option_type atm_strike fuel (reset_index dropped) idx2
        | none => some (reset_index dropped, TermState.ANCHOR_LOST)

/-- Model of `clean_single_dataframe` (source lines 94-120), keeping the
terminal state.  `none` models an uncaught exception: the IndexError at the
initial anchor resolution (line 97) or a KeyError from `drop`. -/
def clean_single_dataframe_full (c : OptionsArbitrageCleaner) (df : List Row)
    (option_type : String) (atm_strike : ℚ) (max_iter : ℕ := 20) :
    Option (List Row × TermState) :=
  match firstLabelWithStrike df atm_strike with
  | none => none
  | some atm_index => cleanLoop c option_type atm_strike max_iter df atm_index

/-- Model of `clean_single_dataframe`: the returned table of the run. -/
def clean_single_dataframe (c : OptionsArbitrageCleaner) (df : List Row)
    (option_type : String) (atm_strike : ℚ) (max_iter : ℕ := 20) :
    Option (List Row) :=
  (clean_single_dataframe_full c df option_type atm_strike max_iter).map Prod.fst

/-- Pairwise processing loop of `clean_all_dataframes` (source lines 136-152):
per pair, identify the ATM strike, clean, and record the removal count
`len(df) - len(df_cleaned)`. -/
def cleanPairs (c : OptionsArbitrageCleaner) :
    List (List Row × String) → Option (List (List Row) × List ℕ)
  | [] => some ([], [])
  | (df, o_type) :: rest =>
    match identify_atm_strike c df with
    | none => none
    | some atm =>
      match clean_single_dataframe c df o_type atm with
      | none => none
      | some out =>
        match cleanPairs c rest with
        | none => none
        | some (dfs, counts) => some (out :: dfs, (df.length - out.length) :: counts)

/-- Model of `clean_all_dataframes` (source lines 122-165): builds one shared
cleaner (with `q = 0`, hence `df_q = 1` exactly; `r` and `T` enter only
through `df_r = exp(-r*T)`, passed here as a value) and iterates
`zip(list_of_dfs, option_types)` — zip truncates to the shorter list.  The
report is modelled by its `removed_counts` list; `arbitrage_types_found` is
never populated by the source. -/
def clean_all_dataframes (list_of_dfs : List (List Row)) (option_types : List String)
    (spot_bid spot_ask df_r : ℚ) : Option (List (List Row) × List ℕ) :=
  cleanPairs ⟨spot_bid, spot_ask, df_r, 1⟩ (list_of_dfs.zip option_types)

/-- Spec-side reading of one iteration's removal set, following the spec's
words: checkers return stable, order-independent keys ("sets of strikes, not
positions"), the three sets are unioned and the anchor's strike is removed.
Positions reported by the vertical and butterfly checkers are translated to
the strike of that position in the sorted view; labels reported by the bounds
checker are translated to the strike of the row bearing that label. -/
def spec_removal_strikes (c : OptionsArbitrageCleaner) (df : List Row)
    (price_type : String) (atm_strike : ℚ) : List ℚ :=
  ((((check_vertical_no_arb df price_type ++ check_butterfly_no_arb df price_type).map
      (fun i => ((sortedView df).getD i row0).strike))
    ++ ((check_bounds c df price_type).filterMap
      (fun l => (df.find? (fun r => decide (r.label = l))).map Row.strike))).dedup).filter
    (fun k => decide (k ≠ atm_strike))

/-- Sortedness of a table by the strike column (weakly ascending). -/
def StrikeSorted (df : List Row) : Prop := List.Sorted rowLE df

instance : DecidablePred StrikeSorted := fun df =>
  inferInstanceAs (Decidable (List.Sorted rowLE df))

/-- Pricing context for the concrete witness runs. -/
def cW : OptionsArbitrageCleaner := ⟨100, 100, 1, 1⟩

/-- One-quote table used as a witness input. -/
def dfW : List Row := [⟨0, 100, 5, 6⟩]

/-- Table with a duplicated anchor strike, of which the second quote violates
the bounds and monotonicity checks. -/
def dfC2 : List Row := [⟨0, 100, 5, 5⟩, ⟨1, 100, 50, 50⟩]

/-- Pricing context for the duplicated-anchor run. -/
def cC2 : OptionsArbitrageCleaner := ⟨10, 20, 1, 1⟩

/-- Table whose rows are not in strike order: the higher strike comes first. -/
def dfC3 : List Row := [⟨0, 100, 5, 5⟩, ⟨1, 90, 1, 1⟩]

/-- Pricing context for the unsorted-table run. -/
def cC3 : OptionsArbitrageCleaner := ⟨0, 1000, 1, 1⟩

/-- Pricing context for the iteration-cap cascade. -/
def cC4 : OptionsArbitrageCleaner := ⟨1, 2000, 1, 1⟩

/-- A 23-row call table on which each iteration removes exactly one quote, so
that the default cap of 20 iterations is exhausted before convergence: the
anchor is strike 1, the strike-2 quote is priced at 1 and every later quote
(strikes 1000, 1010, ..., 1200, prices 50 down to 30) violates monotonicity
against it, one at a time as its predecessors are removed. -/
def dfC4 : List Row :=
  [⟨0, 1, 1000, 1000⟩, ⟨1, 2, 1, 1⟩,
   ⟨2, 1000, 50, 50⟩, ⟨3, 1010, 49, 49⟩, ⟨4, 1020, 48, 48⟩, ⟨5, 1030, 47, 47⟩,
   ⟨6, 1040, 46, 46⟩, ⟨7, 1050, 45, 45⟩, ⟨8, 1060, 44, 44⟩, ⟨9, 1070, 43, 43⟩,
   ⟨10, 1080, 42, 42⟩, ⟨11, 1090, 41, 41⟩, ⟨12, 1100, 40, 40⟩, ⟨13, 1110, 39, 39⟩,
   ⟨14, 1120, 38, 38⟩, ⟨15, 1130, 37, 37⟩, ⟨16, 1140, 36, 36⟩, ⟨17, 1150, 35, 35⟩,
   ⟨18, 1160, 34, 34⟩, ⟨19, 1170, 33, 33⟩, ⟨20, 1180, 32, 32⟩, ⟨21, 1190, 31, 31⟩,
   ⟨22, 1200, 30, 30⟩]

/-- State of `dfC4` after the 20-iteration run: still one violating quote. -/
def tC4 : List Row := [⟨0, 1, 1000, 1000⟩, ⟨1, 2, 1, 1⟩, ⟨2, 1200, 30, 30⟩]

/-- State of `tC4` after a further run: the last violating quote is gone. -/
def tC4' : List Row := [⟨0, 1, 1000, 1000⟩, ⟨1, 2, 1, 1⟩]

/-- Two-row call table whose higher-strike quote violates monotonicity but is
the anchor, so the run is immediately clean. -/
def dfC5 : List Row := [⟨0, 1, 1, 1⟩, ⟨1, 2, 5, 5⟩]

/-- Pricing context for the anchored-violation run. -/
def cC5 : OptionsArbitrageCleaner := ⟨1, 10, 1, 1⟩

/-- Sorted two-row call table that is already clean for the context `cW`
(both quotes inside the model-free bounds, monotone). -/
def dfC5w : List Row := [⟨0, 90, 12, 13⟩, ⟨1, 100, 5, 6⟩]

/-- Equally spaced three-strike call table with a positive butterfly cost at
the middle strike. -/
def dfC6 : List Row := [⟨0, 95, 3, 3⟩, ⟨1, 100, 1, 1⟩, ⟨2, 105, 3, 3⟩]

/-- Two-row table whose strikes 110 and 90 are equidistant from the spot
midpoint 100, with the higher strike occurring first in row order. -/
def dfC8 : List Row := [⟨0, 110, 1, 1⟩, ⟨1, 90, 1, 1⟩]

/-- Pricing context with spot midpoint 100. -/
def cC8 : OptionsArbitrageCleaner := ⟨100, 100, 1, 1⟩

lemma length_reset_index_from (l : List Row) :
    ∀ i, (reset_index_from i l).length = l.length := by
  induction l with
  | nil => intro i; rfl
  | cons r rs ih => intro i; simp [reset_index_from, ih]

lemma label_getD_reset_index_from (l : List Row) :
    ∀ (i k : ℕ), k < l.length → ((reset_index_from i l).getD k row0).label = i + k := by
  induction l with
  | nil => intro i k h; simp at h
  | cons r rs ih =>
    intro i k h
    cases k with
    | zero => simp [reset_index_from]
    | succ k =>
      rw [reset_index_from, List.getD_cons_succ, ih (i + 1) k (by simpa using h)]
      omega

lemma mem_reset_index_from (l : List Row) :
    ∀ (i : ℕ) (x : Row), x ∈ reset_index_from i l →
      ∃ y ∈ l, x.strike = y.strike ∧ x.bid = y.bid ∧ x.ask = y.ask := by
  induction l with
  | nil => intro i x h; simp [reset_index_from] at h
  | cons r rs ih =>
    intro i x h
    rw [reset_index_from, List.mem_cons] at h
    rcases h with rfl | h
    · exact ⟨r, List.mem_cons_self r rs, rfl, rfl, rfl⟩
    · obtain ⟨y, hy, h1, h2, h3⟩ := ih (i + 1) x h
      exact ⟨y, List.mem_cons_of_mem r hy, h1, h2, h3⟩

lemma reset_index_from_reset_index_from (l : List Row) :
    ∀ i j, reset_index_from i (reset_index_from j l) = reset_index_from i l := by
  induction l with
  | nil => intro i j; rfl
  | cons r rs ih => intro i j; simp [reset_index_from, ih]

lemma reset_index_reset_index (l : List Row) :
    reset_index (reset_index l) = reset_index l :=
  reset_index_from_reset_index_from l 0 0

lemma strikeSorted_reset_index_from (l : List Row) :
    ∀ i, StrikeSorted l → StrikeSorted (reset_index_from i l) := by
  induction l with
  | nil => intro i _; exact List.Pairwise.nil
  | cons r rs ih =>
    intro i h
    rw [StrikeSorted, List.sorted_cons] at h
    refine List.Pairwise.cons ?_ (ih (i + 1) h.2)
    intro x hx
    obtain ⟨y, hy, h1, _, _⟩ := mem_reset_index_from rs (i + 1) x hx
    have hr := h.1 y hy
    rw [rowLE] at hr ⊢
    simpa [h1] using hr

lemma strikeSorted_filter (l : List Row) (q : Row → Bool) (h : StrikeSorted l) :
    StrikeSorted (l.filter q) := by
  rw [StrikeSorted] at h ⊢
  exact h.sublist (List.filter_sublist l)

lemma firstRowWithStrike_strike {df : List Row} {k : ℚ} {r : Row}
    (h : firstRowWithStrike df k = some r) : r.strike = k := by
  have := List.find?_some h
  simpa using this

lemma firstRowWithStrike_mem {df : List Row} {k : ℚ} {r : Row}
    (h : firstRowWithStrike df k = some r) : r ∈ df :=
  List.mem_of_find?_eq_some h

lemma firstRowWithStrike_filter {df : List Row} {k : ℚ} {r0 : Row} (q : Row → Bool)
    (h : firstRowWithStrike df k = some r0) (hq : q r0 = true) :
    firstRowWithStrike (df.filter q) k = some r0 := by
  induction df with
  | nil => simp [firstRowWithStrike] at h
  | cons a l ih =>
    by_cases ha : a.strike = k
    · have h' : firstRowWithStrike (a :: l) k = some a := by
        unfold firstRowWithStrike
        exact List.find?_cons_of_pos _ (by simpa using ha)
      rw [h'] at h
      obtain rfl := (Option.some.inj h).symm
      rw [List.filter_cons, if_pos (by simpa using hq)]
      unfold firstRowWithStrike
      exact List.find?_cons_of_pos _ (by simpa using ha)
    · have h' : firstRowWithStrike l k = some r0 := by
        unfold firstRowWithStrike at h ⊢
        rwa [List.find?_cons_of_neg _ (by simpa using ha)] at h
      rw [List.filter_cons]
      by_cases hqa : q a = true
      · rw [if_pos (by simpa using hqa)]
        unfold firstRowWithStrike
        rw [List.find?_cons_of_neg _ (by simpa using ha)]
        exact ih h'
      · rw [if_neg (by simpa using hqa)]
        exact ih h'

lemma firstRowWithStrike_reset_index_from (df : List Row) :
    ∀ (i : ℕ) {k : ℚ} {r0 : Row}, firstRowWithStrike df k = some r0 →
      ∃ j, firstRowWithStrike (reset_index_from i df) k
        = some ⟨j, r0.strike, r0.bid, r0.ask⟩ := by
  induction df with
  | nil => intro i k r0 h; simp [firstRowWithStrike] at h
  | cons a l ih =>
    intro i k r0 h
    by_cases ha : a.strike = k
    · have h' : firstRowWithStrike (a :: l) k = some a := by
        unfold firstRowWithStrike
        exact List.find?_cons_of_pos _ (by simpa using ha)
      rw [h'] at h
      obtain rfl := (Option.some.inj h).symm
      refine ⟨i, ?_⟩
      rw [reset_index_from]
      unfold firstRowWithStrike
      exact List.find?_cons_of_pos _ (by simpa using ha)
    · have h' : firstRowWithStrike l k = some r0 := by
        unfold firstRowWithStrike at h ⊢
        rwa [List.find?_cons_of_neg _ (by simpa using ha)] at h
      obtain ⟨j, hj⟩ := ih (i + 1) h'
      refine ⟨j, ?_⟩
      rw [reset_index_from]
      unfold firstRowWithStrike at hj ⊢
      rw [List.find?_cons_of_neg _ (by simpa using ha)]
      exact hj

lemma dropIndexLabels_eq_some {df : List Row} {L : List ℕ} {out : List Row}
    (h : dropIndexLabels df L = some out) :
    out = df.filter (fun r => decide (r.label ∉ L)) := by
  unfold dropIndexLabels at h
  split at h
  · exact (Option.some.inj h).symm
  · exact absurd h (by simp)

lemma mem_discardIdx {s : List ℕ} {x l : ℕ} :
    l ∈ discardIdx s x ↔ l ∈ s ∧ l ≠ x := by
  simp [discardIdx]

lemma sortedView_eq_self {df : List Row} (h1 : StrikeSorted df)
    (h2 : reset_index df = df) : sortedView df = df := by
  unfold sortedView sort_values_strike
  rw [List.Sorted.insertionSort_eq h1, h2]

lemma label_getD_positional {df : List Row} (h : reset_index df = df) {k : ℕ}
    (hk : k < df.length) : (df.getD k row0).label = k := by
  have h0 : ((reset_index_from 0 df).getD k row0).label = 0 + k :=
    label_getD_reset_index_from df 0 k hk
  rw [reset_index] at h
  rw [h] at h0
  simpa using h0

lemma bestRow_eq_none {mid : ℚ} {df : List Row} (h : bestRow mid df = none) :
    df = [] := by
  cases df with
  | nil => rfl
  | cons r rs =>
    rw [bestRow] at h
    split at h
    · simp at h
    · split at h <;> simp at h

lemma bestRow_first {mid : ℚ} : ∀ {df : List Row} {b : Row}, bestRow mid df = some b →
    firstRowWithStrike df b.strike = some b := by
  intro df
  induction df with
  | nil => intro b h; simp [bestRow] at h
  | cons r rs ih =>
    intro b h
    rw [bestRow] at h
    split at h
    · obtain rfl := (Option.some.inj h).symm
      unfold firstRowWithStrike
      exact List.find?_cons_of_pos _ (by simp)
    · rename_i b' hrs
      split at h
      · rename_i hlt
        have hne : r.strike ≠ b'.strike := by
          intro he
          rw [he] at hlt
          exact lt_irrefl _ hlt
        obtain rfl := (Option.some.inj h).symm
        unfold firstRowWithStrike
        rw [List.find?_cons_of_neg _ (by simpa using hne)]
        exact ih hrs
      · obtain rfl := (Option.some.inj h).symm
        unfold firstRowWithStrike
        exact List.find?_cons_of_pos _ (by simp)

lemma bestRow_min {mid : ℚ} : ∀ {df : List Row} {b : Row}, bestRow mid df = some b →
    ∀ r ∈ df, abs (b.strike - mid) ≤ abs (r.strike - mid) := by
  intro df
  induction df with
  | nil => intro b h; simp [bestRow] at h
  | cons r rs ih =>
    intro b h x hx
    rw [bestRow] at h
    split at h
    · rename_i hrs
      obtain rfl := (Option.some.inj h).symm
      obtain rfl := bestRow_eq_none hrs
      obtain rfl : x = b := by simpa using hx
      exact le_refl _
    · rename_i b' hrs
      split at h
      · rename_i hlt
        obtain rfl := (Option.some.inj h).symm
        rcases List.mem_cons.mp hx with rfl | hx'
        · exact hlt.le
        · exact ih hrs x hx'
      · rename_i hlt
        obtain rfl := (Option.some.inj h).symm
        rcases List.mem_cons.mp hx with rfl | hx'
        · exact le_refl _
        · exact le_trans (not_lt.mp hlt) (ih hrs x hx')

lemma bestRow_argmin (mid : ℚ) : ∀ (df : List Row), df ≠ [] →
    ∃ j, j < df.length ∧ bestRow mid df = some (df.getD j row0) ∧
      ∀ i, i < j →
        abs ((df.getD j row0).strike - mid) < abs ((df.getD i row0).strike - mid) := by
  intro df
  induction df with
  | nil => intro h; exact absurd rfl h
  | cons r rs ih =>
    intro _
    cases rs with
    | nil =>
      refine ⟨0, by simp, by rw [bestRow]; rfl, ?_⟩
      intro i hi
      omega
    | cons a l =>
      obtain ⟨j', hlen, heq, hstr⟩ := ih (by simp)
      by_cases hlt :
          abs (((a :: l).getD j' row0).strike - mid) < abs (r.strike - mid)
      · have hstep : bestRow mid (r :: a :: l) = some ((a :: l).getD j' row0) := by
          rw [bestRow, heq]
          exact if_pos hlt
        refine ⟨j' + 1, by simpa using hlen, by rw [hstep]; rfl, ?_⟩
        intro i hi
        cases i with
        | zero => simpa using hlt
        | succ i => simpa using hstr i (by omega)
      · have hstep : bestRow mid (r :: a :: l) = some r := by
          rw [bestRow, heq]
          exact if_neg hlt
        refine ⟨0, by simp, by rw [hstep]; rfl, ?_⟩
        intro i hi
        omega

lemma cleanLoop_spec (c : OptionsArbitrageCleaner) (ot : String) (atm : ℚ) :
    ∀ (fuel : ℕ) (df : List Row) (r0 : Row),
      firstRowWithStrike df atm = some r0 →
      ∀ (out : List Row) (st : TermState),
        cleanLoop c ot atm fuel df r0.label = some (out, st) →
        st ≠ TermState.ANCHOR_LOST ∧
        ∃ r1 : Row, firstRowWithStrike out atm = some r1 ∧
          r1.bid = r0.bid ∧ r1.ask = r0.ask ∧
          (st = TermState.CLEAN →
            discardIdx (allViolations c out ot) r1.label = []) := by
  intro fuel
  induction fuel with
  | zero =>
    intro df r0 h0 out st hrun
    rw [cleanLoop] at hrun
    obtain ⟨h1, h2⟩ := Prod.mk.injEq _ _ _ _ |>.mp (Option.some.inj hrun)
    subst h1
    subst h2
    exact ⟨fun h => TermState.noConfusion h, r0, h0, rfl, rfl,
      fun h => TermState.noConfusion h⟩
  | succ fuel ih =>
    intro df r0 h0 out st hrun
    rw [cleanLoop] at hrun
    by_cases hV : discardIdx (allViolations c df ot) r0.label = []
    · rw [if_pos hV] at hrun
      obtain ⟨h1, h2⟩ := Prod.mk.injEq _ _ _ _ |>.mp (Option.some.inj hrun)
      subst h1
      subst h2
      exact ⟨fun h => TermState.noConfusion h, r0, h0, rfl, rfl, fun _ => hV⟩
    · rw [if_neg hV] at hrun
      cases hdrop : dropIndexLabels df (discardIdx (allViolations c df ot) r0.label) with
      | none =>
        rw [hdrop] at hrun
        exact absurd hrun (by simp)
      | some dropped =>
        rw [hdrop] at hrun
        have hrun2 : (match firstLabelWithStrike (reset_index dropped) atm with
            | some idx2 => cleanLoop c ot atm fuel (reset_index dropped) idx2
            | none => some (reset_index dropped, TermState.ANCHOR_LOST))
            = some (out, st) := hrun
        have hq : (fun r => decide (r.label ∉ discardIdx (allViolations c df ot) r0.label))
            r0 = true := by
          simp [mem_discardIdx]
        have hfd : firstRowWithStrike dropped atm = some r0 := by
          rw [dropIndexLabels_eq_some hdrop]
          exact firstRowWithStrike_filter _ h0 hq
        obtain ⟨j, hj⟩ := firstRowWithStrike_reset_index_from dropped 0 hfd
        have hj' : firstRowWithStrike (reset_index dropped) atm
            = some ⟨j, r0.strike, r0.bid, r0.ask⟩ := hj
        have hlab : firstLabelWithStrike (reset_index dropped) atm = some j := by
          rw [firstLabelWithStrike, hj']
          rfl
        rw [hlab] at hrun2
        have hrun' : cleanLoop c ot atm fuel (reset_index dropped)
            (Row.label ⟨j, r0.strike, r0.bid, r0.ask⟩) = some (out, st) := hrun2
        obtain ⟨hst, r1, hr1, hb, ha2, hcln⟩ :=
          ih (reset_index dropped) ⟨j, r0.strike, r0.bid, r0.ask⟩ hj' out st hrun'
        exact ⟨hst, r1, hr1, hb, ha2, hcln⟩

lemma cleanLoop_sorted (c : OptionsArbitrageCleaner) (ot : String) (atm : ℚ) :
    ∀ (fuel : ℕ) (df : List Row) (idx : ℕ),
      StrikeSorted df → reset_index df = df →
      ∀ (out : List Row) (st : TermState),
        cleanLoop c ot atm fuel df idx = some (out, st) →
        StrikeSorted out ∧ reset_index out = out := by
  intro fuel
  induction fuel with
  | zero =>
    intro df idx hs hp out st hrun
    rw [cleanLoop] at hrun
    obtain ⟨h1, h2⟩ := Prod.mk.injEq _ _ _ _ |>.mp (Option.some.inj hrun)
    subst h1
    exact ⟨hs, hp⟩
  | succ fuel ih =>
    intro df idx hs hp out st hrun
    rw [cleanLoop] at hrun
    by_cases hV : discardIdx (allViolations c df ot) idx = []
    · rw [if_pos hV] at hrun
      obtain ⟨h1, h2⟩ := Prod.mk.injEq _ _ _ _ |>.mp (Option.some.inj hrun)
      subst h1
      exact ⟨hs, hp⟩
    · rw [if_neg hV] at hrun
      cases hdrop : dropIndexLabels df (discardIdx (allViolations c df ot) idx) with
      | none =>
        rw [hdrop] at hrun
        exact absurd hrun (by simp)
      | some dropped =>
        rw [hdrop] at hrun
        have hrun2 : (match firstLabelWithStrike (reset_index dropped) atm with
            | some idx2 => cleanLoop c ot atm fuel (reset_index dropped) idx2
            | none => some (reset_index dropped, TermState.ANCHOR_LOST))
            = some (out, st) := hrun
        have hds : StrikeSorted dropped := by
          rw [dropIndexLabels_eq_some hdrop]
          exact strikeSorted_filter df _ hs
        have hs2 : StrikeSorted (reset_index dropped) :=
          strikeSorted_reset_index_from dropped 0 hds
        have hp2 : reset_index (reset_index dropped) = reset_index dropped :=
          reset_index_reset_index dropped
        cases hfl : firstLabelWithStrike (reset_index dropped) atm with
        | some idx2 =>
          rw [hfl] at hrun2
          exact ih (reset_index dropped) idx2 hs2 hp2 out st hrun2
        | none =>
          rw [hfl] at hrun2
          obtain ⟨h1, h2⟩ := Prod.mk.injEq _ _ _ _ |>.mp (Option.some.inj hrun2)
          subst h1
          exact ⟨hs2, hp2⟩

lemma pymax_eq_max (a b : ℚ) : pymax a b = max a b := by
  rw [pymax]
  rcases lt_or_ge a b with h | h
  · rw [if_pos h, max_eq_right h.le]
  · rw [if_neg (not_lt.mpr h), max_eq_left h]

lemma identify_firstRow {c : OptionsArbitrageCleaner} {df : List Row} {atm : ℚ}
    (h : identify_atm_strike c df = some atm) :
    ∃ r0, firstRowWithStrike df atm = some r0 := by
  rw [identify_atm_strike] at h
  cases hb : bestRow ((c.Sb + c.Sa) / 2) df with
  | none =>
    rw [hb] at h
    exact absurd h (by simp)
  | some b =>
    rw [hb] at h
    simp only [Option.map_some'] at h
    obtain rfl : b.strike = atm := Option.some.inj h
    exact ⟨b, bestRow_first hb⟩

lemma mem_allViolations_of_monoFlag (c : OptionsArbitrageCleaner) (df : List Row)
    (ot : String) {l : ℕ}
    (h : l ∈ (List.range ((sortedView df).length - 1)).filterMap
      (monoFlag (sortedView df) ot)) :
    l ∈ allViolations c df ot := by
  rw [allViolations, List.mem_dedup, List.mem_append]
  left
  rw [List.mem_append]
  left
  rw [check_vertical_no_arb, List.mem_dedup, List.mem_append]
  left
  exact h

lemma monoFlag_mem_call (s : List Row) (i : ℕ)
    (hpos : ∀ k, k < s.length → (s.getD k row0).label = k)
    (hi : i + 1 < s.length)
    (h : (s.getD i row0).ask < (s.getD (i + 1) row0).bid) :
    (i + 1) ∈ (List.range (s.length - 1)).filterMap (monoFlag s ("call")) := by
  rw [List.mem_filterMap]
  refine ⟨i, List.mem_range.mpr (by omega), ?_⟩
  rw [monoFlag, if_pos rfl, if_pos h, hpos (i + 1) hi]

lemma monoFlag_mem_put (s : List Row) (pt : String) (i : ℕ) (hpt : ¬ pt = "call")
    (hpos : ∀ k, k < s.length → (s.getD k row0).label = k)
    (hi : i + 1 < s.length)
    (h : (s.getD i row0).bid > (s.getD (i + 1) row0).ask) :
    (i + 1) ∈ (List.range (s.length - 1)).filterMap (monoFlag s pt) := by
  rw [List.mem_filterMap]
  refine ⟨i, List.mem_range.mpr (by omega), ?_⟩
  rw [monoFlag, if_neg hpt, if_pos h, hpos (i + 1) hi]

lemma butterflyFlag_eq_some (s : List Row) (pt : String) (i l : ℕ) :
    butterflyFlag s pt i = some l ↔
      abs (((s.getD i row0).strike - (s.getD (i - 1) row0).strike)
          - ((s.getD (i + 1) row0).strike - (s.getD i row0).strike))
        / (s.getD i row0).strike ≤ 1 / 100 ∧
      (s.getD (i - 1) row0).bid - 2 * (s.getD i row0).ask
        + (s.getD (i + 1) row0).bid > eps ∧
      l = (s.getD i row0).label := by
  rw [butterflyFlag]
  split_ifs with h1 h2 h3 h4 <;>
    simp_all [not_lt, eq_comm]

lemma boundsFlag_eq_some (c : OptionsArbitrageCleaner) (pt : String) (row : Row)
    (l : ℕ) :
    boundsFlag c pt row = some l ↔
      l = row.label ∧
      ((pt = "call" ∧ (row.bid < pymax (c.Sb * c.df_q - row.strike * c.df_r) 0 - eps
          ∨ row.ask > c.Sa + eps)) ∨
       (¬ pt = "call" ∧ (row.bid < pymax (row.strike * c.df_r - c.Sa * c.df_q) 0 - eps
          ∨ row.ask > row.strike * c.df_r + eps))) := by
  rw [boundsFlag]
  split_ifs with h1 h2 h3 <;> simp_all [eq_comm]

/-- C10: for every table in which the given `atm_strike` value does not occur
in the strike column, `clean_single_dataframe` raises an exception (modelled
by `none`) at the anchor resolution of line 97, whatever the iteration budget,
instead of returning a table; and it returns normally only when `atm_strike`
is present in the input table. -/
theorem C10_missing_anchor_raises (c : OptionsArbitrageCleaner) (df : List Row)
    (ot : String) (atm : ℚ) (fuel : ℕ) :
    ((∀ r ∈ df, r.strike ≠ atm) → clean_single_dataframe c df ot atm fuel = none) ∧
    (∀ out, clean_single_dataframe c df ot atm fuel = some out →
      ∃ r ∈ df, r.strike = atm) := by
  constructor
  · intro h
    have hnone : firstRowWithStrike df atm = none := by
      rw [firstRowWithStrike, List.find?_eq_none]
      intro r hr
      simpa using h r hr
    have hlab : firstLabelWithStrike df atm = none := by
      rw [firstLabelWithStrike, hnone]
      rfl
    rw [clean_single_dataframe, clean_single_dataframe_full, hlab]
    rfl
  · intro out hout
    cases hfr : firstRowWithStrike df atm with
    | none =>
      have hlab : firstLabelWithStrike df atm = none := by
        rw [firstLabelWithStrike, hfr]
        rfl
      rw [clean_single_dataframe, clean_single_dataframe_full, hlab] at hout
      simp at hout
    | some r =>
      exact ⟨r, firstRowWithStrike_mem hfr, firstRowWithStrike_strike hfr⟩

/-- C10 (witness): on the one-quote table with strike 100, asking for anchor
strike 50 makes the cleaner raise. -/
theorem C10_missing_anchor_raises_witness :
    clean_single_dataframe cW dfW ("call") 50 20 = none :=
  (C10_missing_anchor_raises cW dfW ("call") 50 20).1 (by with_unfolding_all decide)

/-- C1: anchor invariance — whenever `identify_atm_strike` selects the anchor
strike on the original table and the cleaning run returns without terminating
in `ANCHOR_LOST`, the anchor quote (the first row bearing that strike) is
still present in the returned table with its bid and ask unmodified. -/
theorem C1_anchor_invariance (c : OptionsArbitrageCleaner) (df : List Row)
    (ot : String) (atm : ℚ) (fuel : ℕ) (out : List Row) (st : TermState)
    (hatm : identify_atm_strike c df = some atm)
    (hrun : clean_single_dataframe_full c df ot atm fuel = some (out, st))
    (hst : st ≠ TermState.ANCHOR_LOST) :
    ∃ r0 r1 : Row, firstRowWithStrike df atm = some r0 ∧ r1 ∈ out ∧
      r1.strike = atm ∧ r1.bid = r0.bid ∧ r1.ask = r0.ask := by
  obtain ⟨r0, h0⟩ := identify_firstRow hatm
  rw [clean_single_dataframe_full] at hrun
  have hlab : firstLabelWithStrike df atm = some r0.label := by
    rw [firstLabelWithStrike, h0]
    rfl
  rw [hlab] at hrun
  obtain ⟨-, r1, hr1, hb, ha, -⟩ := cleanLoop_spec c ot atm fuel df r0 h0 out st hrun
  exact ⟨r0, r1, h0, firstRowWithStrike_mem hr1, firstRowWithStrike_strike hr1, hb, ha⟩

/-- C1 (witness): concrete clean run on the one-quote table. -/
theorem C1_anchor_invariance_witness :
    ∃ r0 r1 : Row, firstRowWithStrike dfW 100 = some r0 ∧ r1 ∈ dfW ∧
      r1.strike = 100 ∧ r1.bid = r0.bid ∧ r1.ask = r0.ask :=
  C1_anchor_invariance cW dfW ("call") 100 20 dfW TermState.CLEAN
    (by with_unfolding_all decide) (by with_unfolding_all decide)
    (by with_unfolding_all decide)

/-- C2 (amended): the `ANCHOR_LOST` stop never occurs — every returning run
ends in `CLEAN` or `ITER_EXHAUSTED`, because the anchor's index is discarded
from each violation set, so the first row bearing the anchor strike survives
every removal step with bid and ask intact; a removal step can delete only
later quotes carrying the same strike, after which the run continues. -/
theorem C2_anchor_never_lost (c : OptionsArbitrageCleaner) (df : List Row)
    (ot : String) (atm : ℚ) (fuel : ℕ) (out : List Row) (st : TermState)
    (hrun : clean_single_dataframe_full c df ot atm fuel = some (out, st)) :
    st ≠ TermState.ANCHOR_LOST ∧
    ∃ r0 r1 : Row, firstRowWithStrike df atm = some r0 ∧
      firstRowWithStrike out atm = some r1 ∧ r1.bid = r0.bid ∧ r1.ask = r0.ask := by
  rw [clean_single_dataframe_full] at hrun
  cases hfr : firstRowWithStrike df atm with
  | none =>
    have hlab : firstLabelWithStrike df atm = none := by
      rw [firstLabelWithStrike, hfr]
      rfl
    rw [hlab] at hrun
    simp at hrun
  | some r0 =>
    have hlab : firstLabelWithStrike df atm = some r0.label := by
      rw [firstLabelWithStrike, hfr]
      rfl
    rw [hlab] at hrun
    obtain ⟨hst, r1, hr1, hb, ha, -⟩ := cleanLoop_spec c ot atm fuel df r0 hfr out st hrun
    exact ⟨hst, r0, r1, rfl, hr1, hb, ha⟩

/-- C2 (witness): the amended statement at a concrete run. -/
theorem C2_anchor_never_lost_witness :
    TermState.CLEAN ≠ TermState.ANCHOR_LOST ∧
    ∃ r0 r1 : Row, firstRowWithStrike dfW 100 = some r0 ∧
      firstRowWithStrike dfW 100 = some r1 ∧ r1.bid = r0.bid ∧ r1.ask = r0.ask :=
  C2_anchor_never_lost cW dfW ("call") 100 20 dfW TermState.CLEAN
    (by with_unfolding_all decide)

/-- C2 (counterexample): on `dfC2` the first iteration's removal set contains
the label-1 quote, whose strike equals the anchor strike 100; the run deletes
it, does not stop, and returns the shrunken table rather than the pre-removal
table `dfC2`. -/
theorem C2_counterexample :
    firstLabelWithStrike dfC2 100 = some 0 ∧
    (∃ r ∈ dfC2, r.label ∈ discardIdx (allViolations cC2 dfC2 ("call")) 0 ∧
      r.strike = 100) ∧
    clean_single_dataframe cC2 dfC2 ("call") 100 20 = some [⟨0, 100, 5, 5⟩] ∧
    ¬ clean_single_dataframe cC2 dfC2 ("call") 100 20 = some dfC2 := by
  with_unfolding_all decide

/-- C4 (amended): idempotence holds for `CLEAN`-terminated runs — when a run
converges because the violation set minus the anchor became empty, re-running
the cleaner on its output with the same side, pricing context and anchor
strike again terminates `CLEAN` immediately, removes zero quotes, and returns
the identical table. -/
theorem C4_clean_idempotent (c : OptionsArbitrageCleaner) (df out : List Row)
    (ot : String) (atm : ℚ) (fuel fuel' : ℕ) (h0 : 0 < fuel')
    (hrun : clean_single_dataframe_full c df ot atm fuel
      = some (out, TermState.CLEAN)) :
    clean_single_dataframe_full c out ot atm fuel' = some (out, TermState.CLEAN) ∧
    clean_single_dataframe c out ot atm fuel' = some out := by
  rw [clean_single_dataframe_full] at hrun
  cases hfr : firstRowWithStrike df atm with
  | none =>
    have hlab : firstLabelWithStrike df atm = none := by
      rw [firstLabelWithStrike, hfr]
      rfl
    rw [hlab] at hrun
    simp at hrun
  | some r0 =>
    have hlab : firstLabelWithStrike df atm = some r0.label := by
      rw [firstLabelWithStrike, hfr]
      rfl
    rw [hlab] at hrun
    obtain ⟨-, r1, hr1, -, -, hcln⟩ :=
      cleanLoop_spec c ot atm fuel df r0 hfr out TermState.CLEAN hrun
    have hV := hcln rfl
    obtain ⟨k, rfl⟩ : ∃ k, fuel' = k + 1 := ⟨fuel' - 1, by omega⟩
    have hlab2 : firstLabelWithStrike out atm = some r1.label := by
      rw [firstLabelWithStrike, hr1]
      rfl
    have hfull : clean_single_dataframe_full c out ot atm (k + 1)
        = some (out, TermState.CLEAN) := by
      rw [clean_single_dataframe_full, hlab2]
      show cleanLoop c ot atm (k + 1) out r1.label = some (out, TermState.CLEAN)
      rw [cleanLoop, if_pos hV]
    refine ⟨hfull, ?_⟩
    rw [clean_single_dataframe, hfull]
    rfl

/-- C4 (witness): a CLEAN run on the one-quote table, re-run via the theorem. -/
theorem C4_clean_idempotent_witness :
    clean_single_dataframe_full cW dfW ("call") 100 20
      = some (dfW, TermState.CLEAN) ∧
    clean_single_dataframe cW dfW ("call") 100 20 = some dfW :=
  C4_clean_idempotent cW dfW dfW ("call") 100 20 20 (by decide)
    (by with_unfolding_all decide)

set_option maxRecDepth 400000 in
/-- C4 (counterexample): on the 23-row cascade `dfC4` the cleaner exhausts its
default 20 iterations while one violating quote remains, so a second run on
the output removes a further quote and returns a strictly different table. -/
theorem C4_counterexample :
    clean_single_dataframe cC4 dfC4 ("call") 1 20 = some tC4 ∧
    clean_single_dataframe cC4 tC4 ("call") 1 20 = some tC4' ∧
    ¬ tC4' = tC4 := by
  with_unfolding_all decide

/-- C5 (amended): monotonicity after a `CLEAN` stop, for input tables whose
rows are in ascending strike order with positional labels, except for the
adjacent pair whose higher-strike quote is the anchor quote (the checker may
flag it, but the cleaner exempts the anchor, so the pair can remain in
violation). -/
theorem C5_monotone_after_clean (c : OptionsArbitrageCleaner) (df out : List Row)
    (ot : String) (atm : ℚ) (fuel : ℕ)
    (hsorted : StrikeSorted df) (hpos : reset_index df = df)
    (hrun : clean_single_dataframe_full c df ot atm fuel
      = some (out, TermState.CLEAN)) :
    ∀ i, i + 1 < out.length → firstLabelWithStrike out atm ≠ some (i + 1) →
      (ot = "call" → (out.getD (i + 1) row0).bid ≤ (out.getD i row0).ask) ∧
      (¬ ot = "call" → (out.getD i row0).bid ≤ (out.getD (i + 1) row0).ask) := by
  rw [clean_single_dataframe_full] at hrun
  cases hfr : firstRowWithStrike df atm with
  | none =>
    have hlab : firstLabelWithStrike df atm = none := by
      rw [firstLabelWithStrike, hfr]
      rfl
    rw [hlab] at hrun
    simp at hrun
  | some r0 =>
    have hlab : firstLabelWithStrike df atm = some r0.label := by
      rw [firstLabelWithStrike, hfr]
      rfl
    rw [hlab] at hrun
    obtain ⟨-, r1, hr1, -, -, hcln⟩ :=
      cleanLoop_spec c ot atm fuel df r0 hfr out TermState.CLEAN hrun
    have hV := hcln rfl
    obtain ⟨hso, hpo⟩ :=
      cleanLoop_sorted c ot atm fuel df r0.label hsorted hpos out TermState.CLEAN hrun
    have hsv : sortedView out = out := sortedView_eq_self hso hpo
    have hposk : ∀ k, k < out.length → (out.getD k row0).label = k := fun k hk =>
      label_getD_positional hpo hk
    have hlab1 : firstLabelWithStrike out atm = some r1.label := by
      rw [firstLabelWithStrike, hr1]
      rfl
    intro i hi hne
    have hir : ¬ i + 1 = r1.label := fun h => hne (by rw [hlab1, h])
    constructor
    · intro hc
      subst hc
      by_contra hlt
      rw [not_le] at hlt
      have hmem := monoFlag_mem_call out i hposk hi hlt
      have hmem' : (i + 1) ∈ (List.range ((sortedView out).length - 1)).filterMap
          (monoFlag (sortedView out) ("call")) := by
        rw [hsv]
        exact hmem
      have hall := mem_allViolations_of_monoFlag c out ("call") hmem'
      have hd : (i + 1) ∈ discardIdx (allViolations c out ("call")) r1.label :=
        mem_discardIdx.mpr ⟨hall, hir⟩
      rw [hV] at hd
      simp at hd
    · intro hc
      by_contra hlt
      rw [not_le] at hlt
      have hmem := monoFlag_mem_put out ot i hc hposk hi hlt
      have hmem' : (i + 1) ∈ (List.range ((sortedView out).length - 1)).filterMap
          (monoFlag (sortedView out) ot) := by
        rw [hsv]
        exact hmem
      have hall := mem_allViolations_of_monoFlag c out ot hmem'
      have hd : (i + 1) ∈ discardIdx (allViolations c out ot) r1.label :=
        mem_discardIdx.mpr ⟨hall, hir⟩
      rw [hV] at hd
      simp at hd

/-- C5 (witness): the amended statement applied to a concrete sorted clean
run. -/
theorem C5_monotone_after_clean_witness :
    (("call" : String) = "call" → ((dfC5w.getD 1 row0).bid ≤ (dfC5w.getD 0 row0).ask)) ∧
    (¬ ("call" : String) = "call" → ((dfC5w.getD 0 row0).bid ≤ (dfC5w.getD 1 row0).ask)) :=
  C5_monotone_after_clean cW dfC5w dfC5w ("call") 90 20
    (by with_unfolding_all decide) (by with_unfolding_all decide)
    (by with_unfolding_all decide) 0 (by with_unfolding_all decide)
    (by with_unfolding_all decide)

/-- C5 (counterexample): a `CLEAN`-terminated run on a sorted positional table
whose output still violates call monotonicity beyond the tolerance, because
the violating higher-strike quote is the anchor. -/
theorem C5_counterexample :
    clean_single_dataframe_full cC5 dfC5 ("call") 2 20
      = some (dfC5, TermState.CLEAN) ∧
    StrikeSorted dfC5 ∧ reset_index dfC5 = dfC5 ∧
    ((sortedView dfC5).getD 0 row0).ask < ((sortedView dfC5).getD 1 row0).bid - eps := by
  with_unfolding_all decide

/-- C6: butterfly checker characterization — on a table sorted ascending by
strike with positional labels (so that sorted-view positions are the quote
keys), a key is flagged iff it is the middle of an interior triplet whose
spacing asymmetry ratio is at most `0.01` and whose long-butterfly cost
`bid_prev - 2*ask_mid + bid_next` exceeds `eps = 1e-10`; the right-hand side
does not mention the side, so the criterion is identical for calls and puts. -/
theorem C6_butterfly_characterization (df : List Row) (pt : String) (l : ℕ)
    (hsorted : StrikeSorted df) (hpos : reset_index df = df) :
    l ∈ check_butterfly_no_arb df pt ↔
      1 ≤ l ∧ l + 1 < df.length ∧
      abs (((df.getD l row0).strike - (df.getD (l - 1) row0).strike)
          - ((df.getD (l + 1) row0).strike - (df.getD l row0).strike))
        / (df.getD l row0).strike ≤ 1 / 100 ∧
      (df.getD (l - 1) row0).bid - 2 * (df.getD l row0).ask
        + (df.getD (l + 1) row0).bid > eps := by
  have hsv : sortedView df = df := sortedView_eq_self hsorted hpos
  rw [check_butterfly_no_arb, hsv, List.mem_filterMap]
  constructor
  · rintro ⟨i, hir, hf⟩
    rw [List.mem_range'_1] at hir
    obtain ⟨hia, hib⟩ := hir
    rw [butterflyFlag_eq_some] at hf
    obtain ⟨h1, h2, h3⟩ := hf
    have hlen : i + 1 < df.length := by omega
    rw [label_getD_positional hpos (by omega)] at h3
    subst h3
    exact ⟨hia, hlen, h1, h2⟩
  · rintro ⟨h0, h1, h2, h3⟩
    refine ⟨l, List.mem_range'_1.mpr ⟨h0, by omega⟩, ?_⟩
    rw [butterflyFlag_eq_some]
    exact ⟨h2, h3, (label_getD_positional hpos (by omega)).symm⟩

/-- C6 (witness): the equally spaced triplet of `dfC6` with positive butterfly
cost flags its middle strike. -/
theorem C6_butterfly_characterization_witness :
    1 ∈ check_butterfly_no_arb dfC6 ("call") :=
  (C6_butterfly_characterization dfC6 ("call") 1 (by with_unfolding_all decide)
    (by with_unfolding_all decide)).mpr (by with_unfolding_all decide)

/-- C7: bounds checker characterization — a label is flagged iff some row of
the table bears it and violates the side's model-free bounds: for calls
`bid < max(spot_bid*df_q - K*df_r, 0) - eps` or `ask > spot_ask + eps`, for
any other side `bid < max(K*df_r - spot_ask*df_q, 0) - eps` or
`ask > K*df_r + eps`; the criterion reads only that row, independent of its
neighbours. -/
theorem C7_bounds_characterization (c : OptionsArbitrageCleaner) (df : List Row)
    (pt : String) (l : ℕ) :
    l ∈ check_bounds c df pt ↔
      ∃ r ∈ df, r.label = l ∧
        ((pt = "call" ∧ (r.bid < max (c.Sb * c.df_q - r.strike * c.df_r) 0 - eps
            ∨ r.ask > c.Sa + eps)) ∨
         (¬ pt = "call" ∧ (r.bid < max (r.strike * c.df_r - c.Sa * c.df_q) 0 - eps
            ∨ r.ask > r.strike * c.df_r + eps))) := by
  rw [check_bounds, List.mem_filterMap]
  constructor
  · rintro ⟨r, hr, hf⟩
    rw [boundsFlag_eq_some] at hf
    obtain ⟨h1, h2⟩ := hf
    exact ⟨r, hr, h1.symm, by simpa [pymax_eq_max] using h2⟩
  · rintro ⟨r, hr, h1, h2⟩
    refine ⟨r, hr, ?_⟩
    rw [boundsFlag_eq_some]
    exact ⟨h1.symm, by simpa [pymax_eq_max] using h2⟩

/-- C7 (witness): the second quote of `dfC2` is flagged by the bounds checker
in the context `cC2` because its ask exceeds the spot ask. -/
theorem C7_bounds_characterization_witness :
    1 ∈ check_bounds cC2 dfC2 ("call") :=
  (C7_bounds_characterization cC2 dfC2 ("call") 1).mpr
    (by with_unfolding_all decide)

/-- C8 (amended): `identify_atm_strike` returns the strike of the first row
(in row order, the `np.argmin` tie-break) minimizing the distance to the spot
midpoint, and fails exactly on the empty table; ties between equidistant
strikes are broken by row order, not by strike-ascending order. -/
theorem C8_atm_first_row_minimizer (c : OptionsArbitrageCleaner) (df : List Row) :
    (df = [] → identify_atm_strike c df = none) ∧
    (¬ df = [] → ∃ j, j < df.length ∧
      identify_atm_strike c df = some ((df.getD j row0).strike) ∧
      (∀ r ∈ df, abs ((df.getD j row0).strike - (c.Sb + c.Sa) / 2)
          ≤ abs (r.strike - (c.Sb + c.Sa) / 2)) ∧
      (∀ i, i < j → abs ((df.getD j row0).strike - (c.Sb + c.Sa) / 2)
          < abs ((df.getD i row0).strike - (c.Sb + c.Sa) / 2))) := by
  constructor
  · rintro rfl
    rfl
  · intro hne
    obtain ⟨j, hj, heq, hstr⟩ := bestRow_argmin ((c.Sb + c.Sa) / 2) df hne
    refine ⟨j, hj, ?_, ?_, hstr⟩
    · rw [identify_atm_strike, heq]
      rfl
    · intro r hr
      exact bestRow_min heq r hr

/-- C8 (witness): the amended statement applied to `dfC8`. -/
theorem C8_atm_first_row_minimizer_witness :
    ∃ j, j < dfC8.length ∧
      identify_atm_strike cC8 dfC8 = some ((dfC8.getD j row0).strike) ∧
      (∀ r ∈ dfC8, abs ((dfC8.getD j row0).strike - (cC8.Sb + cC8.Sa) / 2)
          ≤ abs (r.strike - (cC8.Sb + cC8.Sa) / 2)) ∧
      (∀ i, i < j → abs ((dfC8.getD j row0).strike - (cC8.Sb + cC8.Sa) / 2)
          < abs ((dfC8.getD i row0).strike - (cC8.Sb + cC8.Sa) / 2)) :=
  (C8_atm_first_row_minimizer cC8 dfC8).2 (by with_unfolding_all decide)

/-- C8 (counterexample): the strikes 110 and 90 of `dfC8` are equidistant from
the spot midpoint 100; the first in strike-ascending order is 90, but
`identify_atm_strike` returns 110, the first in row order. -/
theorem C8_counterexample :
    identify_atm_strike cC8 dfC8 = some 110 ∧
    (90 : ℚ) ∈ dfC8.map Row.strike ∧
    abs ((90 : ℚ) - (cC8.Sb + cC8.Sa) / 2) = abs ((110 : ℚ) - (cC8.Sb + cC8.Sa) / 2) ∧
    (90 : ℚ) < 110 ∧ ¬ (110 : ℚ) = 90 := by
  with_unfolding_all decide

/-- C3: removal is positional, not by stable key — on the unsorted table
`dfC3` the vertical checker flags sorted position 1, which is the strike-100
anchor quote, so the spec's key-based removal set (checker flags translated to
strikes, anchor strike discarded) is empty; yet the run drops index label 1
and thereby deletes the strike-90 quote from the table. -/
theorem C3_removal_is_positional_not_by_key :
    clean_single_dataframe cC3 dfC3 ("call") 100 20 = some [⟨0, 100, 5, 5⟩] ∧
    spec_removal_strikes cC3 dfC3 ("call") 100 = [] ∧
    (90 : ℚ) ∈ dfC3.map Row.strike ∧
    ¬ (90 : ℚ) ∈ ([⟨0, 100, 5, 5⟩] : List Row).map Row.strike := by
  with_unfolding_all decide

/-- C9: a batch call with mismatched list lengths is not surfaced as an
error — `zip` silently truncates to the shorter list, and the call returns
normally, processing only the paired prefix. -/
theorem C9_length_mismatch_silently_truncates :
    clean_all_dataframes [dfW, dfW] [("call")] 100 100 1 = some ([dfW], [0]) ∧
    ¬ ([dfW, dfW] : List (List Row)).length = ([("call")] : List String).length := by
  with_unfolding_all decide
